import Mathlib

/-!
Shallow embedding of the `wsc` scraper core:
`src/shared/scrapper/extractors.py`, `src/shared/scrapper/scrapper.py`
and `src/consumer/data_processor.py`.

Python strings are modelled as `List Char`; the two fixed regular
expressions used by the source are implemented directly, with Python
`re.findall` semantics (leftmost, non-overlapping scan).  Network effects
are modelled by an oracle `Nat → Attempt` giving the outcome of each HTTP
attempt, numbered from 1.
-/

namespace WSC

/-- Python `\s` on ASCII text: space, tab, newline, carriage return,
vertical tab, form feed. -/
def pyIsSpace (c : Char) : Bool :=
  c = ' ' || c = '\t' || c = '\n' || c = '\r' || c = '\x0b' || c = '\x0c'

/-- Python `str.lower` on ASCII text. -/
def lowerStr (s : List Char) : List Char :=
  s.map Char.toLower

/-- Python substring containment `needle in hay`. -/
def inStr (needle : List Char) : List Char → Bool
  | [] => needle.isEmpty
  | c :: rest => needle.isPrefixOf (c :: rest) || inStr needle rest

/-- Python `any(keyword in text for keyword in kws)`. -/
def matchesAny (kws : List (List Char)) (text : List Char) : Bool :=
  kws.any (fun k => inStr k text)

/-- Numeric value of a digit run: Python `int` applied to a digit string. -/
def natOfDigits (ds : List Char) : Nat :=
  ds.foldl (fun n c => n * 10 + (c.toNat - Char.toNat '0')) 0

/-- One attempt to match `(\d+)\+?\s*years` at the head of `s`.  The regex
engine's greedy matching with backtracking coincides with maximal munch
for this pattern: after the maximal digit run the next character is not a
digit, and giving back a digit leaves a digit where `\+?\s*years` must
match, which always fails.  Returns the numeric value of group 1 and the
text remaining after the match. -/
def matchPat1 (s : List Char) : Option (Nat × List Char) :=
  let p := s.span Char.isDigit
  if p.1.isEmpty then none
  else
    let rest2 := match p.2 with
      | '+' :: r => r
      | r => r
    let rest3 := rest2.dropWhile pyIsSpace
    if ("years".toList).isPrefixOf rest3 then
      some (natOfDigits p.1, rest3.drop 5)
    else none

/-- One attempt to match `(\d+)\s*-\s*(\d+)\s*years` at the head of `s`,
with the same maximal-munch argument as for `matchPat1`.  Returns the
numeric values of the two groups and the remaining text. -/
def matchPat2 (s : List Char) : Option ((Nat × Nat) × List Char) :=
  let p := s.span Char.isDigit
  if p.1.isEmpty then none
  else
    match p.2.dropWhile pyIsSpace with
    | '-' :: r1 =>
      let r2 := r1.dropWhile pyIsSpace
      let q := r2.span Char.isDigit
      if q.1.isEmpty then none
      else
        let r3 := q.2.dropWhile pyIsSpace
        if ("years".toList).isPrefixOf r3 then
          some ((natOfDigits p.1, natOfDigits q.1), r3.drop 5)
        else none
    | _ => none

/-- Python `re.findall`: scan left to right; on a match, continue after the
matched text, otherwise advance one character.  `fuel` bounds the number of
scan steps; both patterns consume at least one character per match, so
`fuel = s.length` always suffices and the bound is never hit. -/
def findallAux (step : List Char → Option (α × List Char)) :
    Nat → List Char → List α
  | 0, _ => []
  | _, [] => []
  | fuel + 1, c :: rest =>
    match step (c :: rest) with
    | some (v, rem) => v :: findallAux step fuel rem
    | none => findallAux step fuel rest

/-- `re.findall` of the first pattern of `_extract_years_experience`,
as the list of numeric group values. -/
def findall1 (text : List Char) : List Nat :=
  findallAux matchPat1 text.length text

/-- `re.findall` of the second pattern of `_extract_years_experience`,
as the list of numeric group pairs. -/
def findall2 (text : List Char) : List (Nat × Nat) :=
  findallAux matchPat2 text.length text

/-- `extractors._extract_years_experience`: fold a running maximum
(started at 0) over the matches of both patterns in order; a tuple match
contributes `max(int(y) for y in match)`, the larger of its two bounds. -/
def _extract_years_experience (text : List Char) : Nat :=
  let m1 := (findall1 text).foldl (fun mx v => max mx v) 0
  (findall2 text).foldl (fun mx p => max mx (max p.1 p.2)) m1

/-- The `seniority_keywords` list of `_calculate_complexity_score`. -/
def seniority_keywords : List (List Char) :=
  ["lead", "senior", "principal", "staff", "architect", "director",
   "head", "chief"].map String.toList

/-- The `complexity_keywords` list of `_calculate_complexity_score`. -/
def complexity_keywords : List (List Char) :=
  ["state-of-the-art", "cutting-edge", "research", "phd", "deep learning",
   "machine learning", "ai", "algorithm", "architecture", "distributed",
   "scalability", "real-time", "end-to-end", "full cycle",
   "generative"].map String.toList

/-- The seniority-keyword loop of `_calculate_complexity_score`:
`for keyword in seniority_keywords: if keyword in title_lower: +20; break`
adds 20 exactly when some keyword occurs in the lowered title. -/
def hasSeniorityKeyword (title : List Char) : Bool :=
  matchesAny seniority_keywords (lowerStr title)

/-- `sum(1 for keyword in complexity_keywords if keyword in full_text)`. -/
def complexityCount (full_text : List Char) : Nat :=
  complexity_keywords.countP (fun k => inStr k full_text)

/-- `extractors._calculate_complexity_score`. -/
def _calculate_complexity_score (title full_text : List Char)
    (requirements : List (List Char)) : Nat :=
  let score : Nat := 0
  let score := score + min 35 (requirements.length * 5)
  let experience_years := _extract_years_experience full_text
  let score := score +
    (if experience_years ≥ 7 then 30
     else if experience_years ≥ 5 then 25
     else if experience_years ≥ 3 then 20
     else if experience_years ≥ 1 then 10
     else 0)
  let score := score + (if hasSeniorityKeyword title then 20 else 0)
  let score := score + min 15 (complexityCount full_text * 2)
  min 100 score

/-- The `engineering_keywords` list of `_categorize_position`. -/
def engineering_keywords : List (List Char) :=
  ["engineer", "developer", "software", "algorithm", "backend", "frontend",
   "full stack", "devops", "sre", "data engineer", "ml", "ai", "nlp",
   "computer vision", "infrastructure", "architect",
   "technical"].map String.toList

/-- The `product_keywords` list of `_categorize_position`. -/
def product_keywords : List (List Char) :=
  ["product manager", "product owner", "pm", "product lead",
   "product strategy", "roadmap", "stakeholder"].map String.toList

/-- The `design_keywords` list of `_categorize_position`. -/
def design_keywords : List (List Char) :=
  ["designer", "ux", "ui", "user experience", "user interface",
   "graphic design", "visual design", "design system"].map String.toList

/-- The `operations_keywords` list of `_categorize_position`. -/
def operations_keywords : List (List Char) :=
  ["operations", "ops manager", "program manager", "project manager",
   "scrum master", "agile coach", "business operations",
   "customer success"].map String.toList

set_option linter.unusedVariables false in
/-- `extractors._categorize_position`.  The `responsibilities` parameter is
accepted, as in the source, and never read. -/
def _categorize_position (title full_text : List Char)
    (responsibilities : List (List Char)) : List Char :=
  let combined_text := lowerStr (title ++ ' ' :: full_text)
  if matchesAny engineering_keywords combined_text then "Engineering".toList
  else if matchesAny product_keywords combined_text then "Product".toList
  else if matchesAny design_keywords combined_text then "Design".toList
  else if matchesAny operations_keywords combined_text then "Operations".toList
  else "Other".toList

/-- The Lead title-override keyword list of `_determine_seniority`. -/
def lead_title_keywords : List (List Char) :=
  ["lead", "principal", "staff", "director", "head", "chief"].map String.toList

/-- The Junior title-override keyword list of `_determine_seniority`. -/
def junior_title_keywords : List (List Char) :=
  ["junior", "jr.", "entry", "associate"].map String.toList

/-- The advanced-degree keyword list of `_determine_seniority`. -/
def degree_keywords : List (List Char) :=
  ["phd", "ph.d", "m.sc", "master"].map String.toList

/-- The leadership keyword list of `_determine_seniority`. -/
def leadership_keywords : List (List Char) :=
  ["lead team", "mentor", "autonomy", "independently", "ownership",
   "drive", "strategy", "architecture decision"].map String.toList

/-- `extractors._determine_seniority`. -/
def _determine_seniority (title full_text : List Char)
    (requirements : List (List Char)) : List Char :=
  let title_lower := lowerStr title
  let combined_text := lowerStr (title ++ ' ' :: full_text)
  if matchesAny lead_title_keywords title_lower then "Lead".toList
  else if inStr ("senior".toList) title_lower
      || inStr ("sr.".toList) title_lower then "Senior".toList
  else if matchesAny junior_title_keywords title_lower then "Junior".toList
  else
    let years_exp := _extract_years_experience full_text
    let has_advanced_degree := matchesAny degree_keywords combined_text
    let has_leadership := matchesAny leadership_keywords combined_text
    if years_exp ≥ 7 || (has_advanced_degree && years_exp ≥ 5) then
      "Lead".toList
    else if years_exp ≥ 5 || (years_exp ≥ 3 && has_leadership) then
      "Senior".toList
    else if years_exp ≥ 2 || (years_exp ≥ 1 && requirements.length ≤ 5) then
      "Mid".toList
    else
      "Junior".toList

/-- One anchor of the `div#response_jobs` listing container:
`link_text` is the stripped text of the nested `span.link-text` node when
that node exists, `href` is `link.get("href", "")`. -/
structure Anchor where
  link_text : Option (List Char)
  href : List Char
  deriving DecidableEq

/-- A listing page, reduced to what `extract_positions` queries:
the anchors of the `div#response_jobs` container, in document order,
or `none` when the container is absent. -/
structure Page where
  response_jobs : Option (List Anchor)
  deriving DecidableEq

/-- One record produced by `extract_positions`. -/
structure PositionRec where
  position_title : List Char
  index : List Char
  job_url : List Char
  deriving DecidableEq

/-- The loop body of `extract_positions` for one element `(i, link)` of
`enumerate(job_links)`: when the nested label node exists, a record carrying
`str(i)`; otherwise nothing. -/
def posStep (p : Nat × Anchor) : Option PositionRec :=
  match p.2.link_text with
  | some t => some ⟨t, (Nat.repr p.1).toList, p.2.href⟩
  | none => none

/-- `extractors.extract_positions`: enumerate all anchors of the container;
an anchor whose nested label node exists appends a record, other anchors
append nothing. -/
def extract_positions (page : Page) : List PositionRec :=
  match page.response_jobs with
  | none => []
  | some job_links => job_links.enum.filterMap posStep

/-- The exceptions that can escape one `session.get` attempt in
`Scrapper._fetch_page`.  `netErr` stands for connection-level
`aiohttp.ClientError`s; `httpStatusErr` is the `aiohttp.ClientResponseError`
raised by `response.raise_for_status()` on a non-2xx status — itself a
subclass of `aiohttp.ClientError`; `timeoutErr` is `asyncio.TimeoutError`;
`otherErr` is any other exception. -/
inductive FetchExc where
  | netErr
  | timeoutErr
  | httpStatusErr (code : Nat)
  | otherErr
  deriving DecidableEq

/-- Outcome of one HTTP attempt. -/
inductive Attempt where
  | ok (html : List Char)
  | exc (e : FetchExc)
  deriving DecidableEq

/-- `retry_if_exception_type((aiohttp.ClientError, asyncio.TimeoutError))`:
since `ClientResponseError` subclasses `ClientError`, a non-2xx status
error is retryable; only exceptions outside both types are not. -/
def retryableExc : FetchExc → Bool
  | .netErr => true
  | .timeoutErr => true
  | .httpStatusErr _ => true
  | .otherErr => false

/-- tenacity `wait_exponential(multiplier, min, max)` evaluated after the
attempt numbered `att` (attempts are numbered from 1):
`max(min, min(multiplier * 2 ** att, max))`. -/
def wait_exponential (multiplier mn mx att : Nat) : Nat :=
  max mn (min (multiplier * 2 ^ att) mx)

/-- Result of running `Scrapper._fetch_page` against an attempt oracle:
the final outcome, the number of attempts issued, and the sleeps taken
between consecutive attempts. -/
structure FetchResult where
  outcome : Except FetchExc (List Char)
  attempts : Nat
  delays : List Nat

/-- The tenacity retry loop wrapped around `session.get` in
`Scrapper._fetch_page`.  `remaining` counts the attempts still allowed,
including the current one; `n` is the current attempt number.  A retryable
exception with attempts left sleeps `wait_exponential 1 2 10 n` and retries;
a retryable exception at the attempt limit is re-raised (`reraise=True`);
a non-retryable exception is raised immediately. -/
def fetchAux (oracle : Nat → Attempt) :
    Nat → Nat → List Nat → FetchResult
  | 0, n, delays => ⟨.error .otherErr, n, delays⟩
  | remaining + 1, n, delays =>
    match oracle n with
    | .ok h => ⟨.ok h, n, delays⟩
    | .exc e =>
      if retryableExc e then
        if remaining = 0 then ⟨.error e, n, delays⟩
        else fetchAux oracle remaining (n + 1)
          (delays ++ [wait_exponential 1 2 10 n])
      else ⟨.error e, n, delays⟩

/-- `Scrapper._fetch_page` under its decorator:
`stop_after_attempt(3)`, `wait_exponential(multiplier=1, min=2, max=10)`,
retry on `(aiohttp.ClientError, asyncio.TimeoutError)`, `reraise=True`. -/
def _fetch_page (oracle : Nat → Attempt) : FetchResult :=
  fetchAux oracle 3 1 []

/-- `Scrapper.scrape`: fetch, then run the extractor; the surrounding
`try` catches every exception — in particular every fetch failure — and
returns `None`.  The fetch outcome for the scraped URL is passed in. -/
def scrape (fetched : Except FetchExc (List Char))
    (extractor : List Char → α) : Option α :=
  match fetched with
  | .ok html => some (extractor html)
  | .error _ => none

/-- Model of a Python dict as produced by `extract_job_info`:
an association list. -/
abbrev PyDict := List (List Char × List Char)

/-- Python truthiness of a dict: nonempty. -/
def pyTruthyDict (d : PyDict) : Bool :=
  !d.isEmpty

/-- `DataProcessor._scrape_job_info`: one `scrape` per event, sequentially;
a falsy result (`None` from a failed fetch, or an empty dict) is logged and
skipped, everything else is appended.  `scrape` never raises, so the
`except ... raise` branch is dead and the function always returns `ok`.
Each event's fetch behaviour is summarised by its entry in `fetches`. -/
def _scrape_job_info (fetches : List (Except FetchExc (List Char)))
    (extractor : List Char → PyDict) :
    Except FetchExc (List PyDict) :=
  .ok <| fetches.filterMap (fun fetched =>
    match scrape fetched extractor with
    | some metadata =>
      if pyTruthyDict metadata then some metadata else none
    | none => none)

/-! ### Helper lemmas -/

theorem foldl_max_eq (l : List Nat) :
    ∀ i : Nat, l.foldl (fun mx v => max mx v) i = max i (l.foldr max 0) := by
  induction l with
  | nil => intro i; simp
  | cons a t ih =>
    intro i
    simp only [List.foldl_cons, List.foldr_cons, ih (max i a)]
    rw [Nat.max_assoc]

theorem foldl_max_pair (l : List (Nat × Nat)) :
    ∀ i : Nat,
      l.foldl (fun mx p => max mx (max p.1 p.2)) i
        = max i ((l.map (fun p => max p.1 p.2)).foldr max 0) := by
  induction l with
  | nil => intro i; simp
  | cons a t ih =>
    intro i
    simp only [List.foldl_cons, List.map_cons, List.foldr_cons,
      ih (max i (max a.1 a.2))]
    rw [Nat.max_assoc]

theorem foldr_max_init (l : List Nat) :
    ∀ c : Nat, l.foldr max c = max (l.foldr max 0) c := by
  induction l with
  | nil => intro c; simp
  | cons a t ih =>
    intro c
    simp only [List.foldr_cons, ih c]
    rw [Nat.max_assoc]

theorem foldr_max_append (a b : List Nat) :
    (a ++ b).foldr max 0 = max (a.foldr max 0) (b.foldr max 0) := by
  rw [List.foldr_append, foldr_max_init]

theorem length_filterMap_countP (f : α → Option β) (l : List α) :
    (l.filterMap f).length = l.countP (fun a => (f a).isSome) := by
  induction l with
  | nil => rfl
  | cons a t ih =>
    cases hfa : f a <;>
      simp [List.filterMap_cons, hfa, List.countP_cons, ih]

theorem countP_lt_of_mem_false (p : α → Bool) (l : List α) (x : α)
    (hx : x ∈ l) (hp : p x = false) : l.countP p < l.length := by
  rcases Nat.lt_or_ge (l.countP p) l.length with h | h
  · exact h
  · have heq : l.countP p = l.length :=
      Nat.le_antisymm (List.countP_le_length p) h
    have := List.countP_eq_length.mp heq x hx
    simp [hp] at this

theorem posStep_enumFrom_length (links : List Anchor) :
    ∀ n : Nat,
      ((List.enumFrom n links).filterMap posStep).length
        = links.countP (fun a => a.link_text.isSome) := by
  induction links with
  | nil => intro n; rfl
  | cons a t ih =>
    intro n
    cases hal : a.link_text <;>
      simp [List.enumFrom, List.filterMap_cons, posStep, hal,
        List.countP_cons, ih (n + 1)]

theorem posStep_enumFrom_dense (links : List Anchor) :
    ∀ n : Nat, (∀ a ∈ links, a.link_text.isSome = true) →
      ((List.enumFrom n links).filterMap posStep).map (fun r => r.index)
        = (List.range' n links.length).map (fun i => (Nat.repr i).toList) := by
  induction links with
  | nil => intro n _; rfl
  | cons a t ih =>
    intro n h
    obtain ⟨ttl, hal⟩ := Option.isSome_iff_exists.mp (h a (by simp))
    simp [List.enumFrom, List.filterMap_cons, posStep, hal, List.range',
      ih (n + 1) (fun x hx => h x (by simp [hx]))]

theorem fetchAux_attempts_le (oracle : Nat → Attempt) :
    ∀ (rem n : Nat) (ds : List Nat), 1 ≤ rem →
      (fetchAux oracle rem n ds).attempts ≤ n + rem - 1 := by
  intro rem
  induction rem with
  | zero => intro n ds h; exact absurd h (by omega)
  | succ r ih =>
    intro n ds _
    rw [fetchAux]
    rcases hON : oracle n with html | e
    · dsimp only
      omega
    · dsimp only
      split_ifs with h1 h2
      · show n ≤ n + (r + 1) - 1
        omega
      · have hr : 1 ≤ r := Nat.one_le_iff_ne_zero.mpr h2
        have := ih (n + 1) (ds ++ [wait_exponential 1 2 10 n]) hr
        omega
      · show n ≤ n + (r + 1) - 1
        omega

theorem fetchAux_attempts_ge (oracle : Nat → Attempt) :
    ∀ (rem n : Nat) (ds : List Nat), n ≤ (fetchAux oracle rem n ds).attempts := by
  intro rem
  induction rem with
  | zero => intro n ds; simp [fetchAux]
  | succ r ih =>
    intro n ds
    rw [fetchAux]
    rcases hON : oracle n with html | e
    · exact Nat.le_refl n
    · dsimp only
      split_ifs with h1 h2
      · exact Nat.le_refl n
      · have := ih (n + 1) (ds ++ [wait_exponential 1 2 10 n])
        omega
      · exact Nat.le_refl n

theorem fetchAux_delays_bound (oracle : Nat → Attempt) :
    ∀ (rem n : Nat) (ds : List Nat), (∀ d ∈ ds, 2 ≤ d ∧ d ≤ 10) →
      ∀ d ∈ (fetchAux oracle rem n ds).delays, 2 ≤ d ∧ d ≤ 10 := by
  intro rem
  induction rem with
  | zero => intro n ds h; simpa [fetchAux] using h
  | succ r ih =>
    intro n ds h
    rw [fetchAux]
    rcases hON : oracle n with html | e
    · dsimp only
      exact h
    · dsimp only
      split_ifs with h1 h2
      · exact h
      · refine ih (n + 1) _ ?_
        intro d hd
        rcases List.mem_append.mp hd with hd | hd
        · exact h d hd
        · rcases List.mem_singleton.mp hd with rfl
          simp only [wait_exponential]
          constructor
          · exact Nat.le_max_left 2 _
          · exact Nat.max_le.mpr ⟨by norm_num, Nat.min_le_right _ _⟩
      · exact h

theorem fetch_page_exhaust (oracle : Nat → Attempt) (e1 e2 e3 : FetchExc)
    (h1 : oracle 1 = .exc e1) (h2 : oracle 2 = .exc e2)
    (h3 : oracle 3 = .exc e3) (r1 : retryableExc e1 = true)
    (r2 : retryableExc e2 = true) (r3 : retryableExc e3 = true) :
    _fetch_page oracle = ⟨.error e3, 3, [2, 4]⟩ := by
  simp [_fetch_page, fetchAux, h1, h2, h3, r1, r2, r3, wait_exponential]

/-! ### Claim theorems -/

/-- Claim C6: `_extract_years_experience` returns the maximum numeric value
over all matches of the two patterns, taking the larger bound of every range
match, and returns 0 when neither pattern matches. -/
theorem years_experience_is_max_of_matches (text : List Char) :
    _extract_years_experience text
      = ((findall1 text)
          ++ (findall2 text).map (fun p => max p.1 p.2)).foldr max 0
    ∧ (findall1 text = [] → findall2 text = [] →
        _extract_years_experience text = 0) := by
  constructor
  · simp only [_extract_years_experience]
    rw [foldr_max_append, foldl_max_pair, foldl_max_eq, Nat.zero_max]
  · intro h1 h2
    simp only [_extract_years_experience, h1, h2]
    rfl

/-- Witness for C6 at a text with no match of either pattern. -/
theorem years_experience_is_max_of_matches_w :
    _extract_years_experience ("hello".toList) = 0 :=
  (years_experience_is_max_of_matches ("hello".toList)).2 rfl rfl

/-- Claim C4: the complexity score always lies in [0, 100], and it is 0 when
the requirements list is empty, no years-of-experience pattern matches, no
seniority keyword occurs in the lowered title and no complexity keyword
occurs in the full text. -/
theorem complexity_score_in_range (title full_text : List Char)
    (requirements : List (List Char)) :
    _calculate_complexity_score title full_text requirements ≤ 100
    ∧ 0 ≤ _calculate_complexity_score title full_text requirements
    ∧ (requirements = [] → findall1 full_text = [] → findall2 full_text = [] →
        hasSeniorityKeyword title = false → complexityCount full_text = 0 →
        _calculate_complexity_score title full_text requirements = 0) := by
  refine ⟨?_, Nat.zero_le _, ?_⟩
  · simp only [_calculate_complexity_score]
    exact Nat.min_le_left _ _
  · intro h1 h2 h3 h4 h5
    have hy : _extract_years_experience full_text = 0 := by
      simp only [_extract_years_experience, h2, h3]
      rfl
    simp [_calculate_complexity_score, h1, h4, h5, hy]

/-- Witness for C4 at empty title, text and requirements. -/
theorem complexity_score_in_range_w :
    _calculate_complexity_score [] [] [] = 0 :=
  (complexity_score_in_range [] [] []).2.2 rfl rfl rfl rfl rfl

/-- Claim C5: the complexity score is `min 100` of the sum of the four
independently capped terms — requirement term `min 35 (5*len)`, tiered
experience term, 20 for a seniority keyword in the lowered title, and
`min 15 (2*count)` for complexity keywords — and the concrete example with
10 requirements, 8 years, title "Staff Architect" and 4 complexity keywords
scores 93. -/
theorem complexity_score_formula :
    (∀ (title full_text : List Char) (requirements : List (List Char)),
      _calculate_complexity_score title full_text requirements
        = min 100 (min 35 (5 * requirements.length)
            + (if 7 ≤ _extract_years_experience full_text then 30
               else if 5 ≤ _extract_years_experience full_text then 25
               else if 3 ≤ _extract_years_experience full_text then 20
               else if 1 ≤ _extract_years_experience full_text then 10
               else 0)
            + (if hasSeniorityKeyword title then 20 else 0)
            + min 15 (2 * complexityCount full_text)))
    ∧ _calculate_complexity_score ("Staff Architect".toList)
        ("8 years research phd ai distributed".toList)
        (List.replicate 10 ("r".toList)) = 93 := by
  constructor
  · intro title full_text requirements
    simp only [_calculate_complexity_score, Nat.zero_add]
    rw [Nat.mul_comm requirements.length 5,
      Nat.mul_comm (complexityCount full_text) 2]
  · decide

/-- Claim C7: `_categorize_position` always returns exactly one of the five
category strings, checks the keyword sets in the fixed priority order
Engineering, Product, Design, Operations with the first match winning and
Other as default, and maps empty inputs to Other. -/
theorem categorize_position_total_priority :
    (∀ (t ft : List Char) (resp : List (List Char)),
        _categorize_position t ft resp = "Engineering".toList
      ∨ _categorize_position t ft resp = "Product".toList
      ∨ _categorize_position t ft resp = "Design".toList
      ∨ _categorize_position t ft resp = "Operations".toList
      ∨ _categorize_position t ft resp = "Other".toList)
    ∧ (∀ (t ft : List Char) (resp : List (List Char)),
        matchesAny engineering_keywords (lowerStr (t ++ ' ' :: ft)) = true →
        _categorize_position t ft resp = "Engineering".toList)
    ∧ (∀ (t ft : List Char) (resp : List (List Char)),
        matchesAny engineering_keywords (lowerStr (t ++ ' ' :: ft)) = false →
        matchesAny product_keywords (lowerStr (t ++ ' ' :: ft)) = true →
        _categorize_position t ft resp = "Product".toList)
    ∧ (∀ (t ft : List Char) (resp : List (List Char)),
        matchesAny engineering_keywords (lowerStr (t ++ ' ' :: ft)) = false →
        matchesAny product_keywords (lowerStr (t ++ ' ' :: ft)) = false →
        matchesAny design_keywords (lowerStr (t ++ ' ' :: ft)) = true →
        _categorize_position t ft resp = "Design".toList)
    ∧ (∀ (t ft : List Char) (resp : List (List Char)),
        matchesAny engineering_keywords (lowerStr (t ++ ' ' :: ft)) = false →
        matchesAny product_keywords (lowerStr (t ++ ' ' :: ft)) = false →
        matchesAny design_keywords (lowerStr (t ++ ' ' :: ft)) = false →
        matchesAny operations_keywords (lowerStr (t ++ ' ' :: ft)) = true →
        _categorize_position t ft resp = "Operations".toList)
    ∧ (∀ (t ft : List Char) (resp : List (List Char)),
        matchesAny engineering_keywords (lowerStr (t ++ ' ' :: ft)) = false →
        matchesAny product_keywords (lowerStr (t ++ ' ' :: ft)) = false →
        matchesAny design_keywords (lowerStr (t ++ ' ' :: ft)) = false →
        matchesAny operations_keywords (lowerStr (t ++ ' ' :: ft)) = false →
        _categorize_position t ft resp = "Other".toList)
    ∧ _categorize_position [] [] [] = "Other".toList := by
  refine ⟨?_, ?_, ?_, ?_, ?_, ?_, by decide⟩
  · intro t ft resp
    simp only [_categorize_position]
    split_ifs
    · exact Or.inl rfl
    · exact Or.inr (Or.inl rfl)
    · exact Or.inr (Or.inr (Or.inl rfl))
    · exact Or.inr (Or.inr (Or.inr (Or.inl rfl)))
    · exact Or.inr (Or.inr (Or.inr (Or.inr rfl)))
  · intro t ft resp h1
    simp [_categorize_position, h1]
  · intro t ft resp h1 h2
    simp [_categorize_position, h1, h2]
  · intro t ft resp h1 h2 h3
    simp [_categorize_position, h1, h2, h3]
  · intro t ft resp h1 h2 h3 h4
    simp [_categorize_position, h1, h2, h3, h4]
  · intro t ft resp h1 h2 h3 h4
    simp [_categorize_position, h1, h2, h3, h4]

/-- Witness for C7 applying the Engineering branch at a concrete title. -/
theorem categorize_position_total_priority_w :
    _categorize_position ("Engineer".toList) [] [] = "Engineering".toList :=
  categorize_position_total_priority.2.1 ("Engineer".toList) [] [] (by decide)

/-- Claim C8: `_determine_seniority` checks the title-substring overrides
first — the Lead set, then "senior"/"sr.", then the Junior set — before any
years/degree/leadership heuristic; with text "8 years" and title
"Senior Backend Engineer" it returns Senior, not Lead. -/
theorem seniority_title_overrides :
    (∀ (t ft : List Char) (reqs : List (List Char)),
        matchesAny lead_title_keywords (lowerStr t) = true →
        _determine_seniority t ft reqs = "Lead".toList)
    ∧ (∀ (t ft : List Char) (reqs : List (List Char)),
        matchesAny lead_title_keywords (lowerStr t) = false →
        (inStr ("senior".toList) (lowerStr t)
          || inStr ("sr.".toList) (lowerStr t)) = true →
        _determine_seniority t ft reqs = "Senior".toList)
    ∧ (∀ (t ft : List Char) (reqs : List (List Char)),
        matchesAny lead_title_keywords (lowerStr t) = false →
        inStr ("senior".toList) (lowerStr t) = false →
        inStr ("sr.".toList) (lowerStr t) = false →
        matchesAny junior_title_keywords (lowerStr t) = true →
        _determine_seniority t ft reqs = "Junior".toList)
    ∧ _determine_seniority ("Senior Backend Engineer".toList)
        ("8 years".toList) [] = "Senior".toList := by
  refine ⟨?_, ?_, ?_, by decide⟩
  · intro t ft reqs h1
    simp [_determine_seniority, h1]
  · intro t ft reqs h1 h2
    simp only [_determine_seniority, h1, h2]
    simp
  · intro t ft reqs h1 h2 h3 h4
    simp [_determine_seniority, h1, h4]
    exact ⟨h2, h3⟩

/-- Witness for C8 applying the Lead override at a concrete title. -/
theorem seniority_title_overrides_w :
    _determine_seniority ("Staff Engineer".toList) [] [] = "Lead".toList :=
  seniority_title_overrides.1 ("Staff Engineer".toList) [] [] (by decide)

/-- Claim C10: `_categorize_position` does not depend on its
`responsibilities` argument: any two responsibility lists give the same
category for the same title and full text. -/
theorem categorize_position_ignores_responsibilities (t ft : List Char)
    (r1 r2 : List (List Char)) :
    _categorize_position t ft r1 = _categorize_position t ft r2 := rfl

/-- Claim C9: for every attempt oracle `_fetch_page` issues at most 3 total
attempts and every inter-attempt delay lies within [2, 10] seconds; on a
sequence of retryable network/timeout outcomes all 3 attempts are issued,
the delays follow exponential growth from the 2-second base (2 s then 4 s),
and the last error propagates unchanged. -/
theorem fetch_retry_budget :
    (∀ oracle, (_fetch_page oracle).attempts ≤ 3)
    ∧ (∀ oracle, ∀ d ∈ (_fetch_page oracle).delays, 2 ≤ d ∧ d ≤ 10)
    ∧ (∀ oracle,
        (∀ k, oracle k = .exc .netErr ∨ oracle k = .exc .timeoutErr) →
        (_fetch_page oracle).attempts = 3
        ∧ (_fetch_page oracle).delays
            = [wait_exponential 1 2 10 1, wait_exponential 1 2 10 2]
        ∧ (_fetch_page oracle).delays = [2, 4]
        ∧ ∃ e, oracle 3 = .exc e
            ∧ (_fetch_page oracle).outcome = .error e) := by
  refine ⟨?_, ?_, ?_⟩
  · intro oracle
    have h := fetchAux_attempts_le oracle 3 1 [] (by omega)
    simpa [_fetch_page] using h
  · intro oracle
    exact fetchAux_delays_bound oracle 3 1 [] (by simp)
  · intro oracle h
    rcases h 1 with h1 | h1 <;> rcases h 2 with h2 | h2 <;>
      rcases h 3 with h3 | h3 <;>
    · have he := fetch_page_exhaust oracle _ _ _ h1 h2 h3 rfl rfl rfl
      exact ⟨by rw [he], by rw [he]; decide, by rw [he], _, h3, by rw [he]⟩

/-- Witness for C9 at an oracle whose every attempt fails with a network
error. -/
theorem fetch_retry_budget_w :
    (_fetch_page (fun _ => .exc .netErr)).attempts = 3
    ∧ (_fetch_page (fun _ => .exc .netErr)).delays = [2, 4] := by
  have h := fetch_retry_budget.2.2 (fun _ => .exc .netErr)
    (fun k => Or.inl rfl)
  exact ⟨h.1, h.2.2.1⟩

/-- An attempt oracle whose first attempt fails with HTTP status 404 and
whose second attempt succeeds. -/
def httpThenOkOracle : Nat → Attempt :=
  fun n => if n = 1 then .exc (.httpStatusErr 404) else .ok ("ok".toList)

/-- Counterexample to C2: after a non-2xx HTTP status failure on attempt 1,
`_fetch_page` issues a second attempt and succeeds — a non-2xx status does
not make the fetch fail immediately, because `ClientResponseError` is a
subclass of the retried `aiohttp.ClientError`. -/
theorem http_status_error_is_retried :
    httpThenOkOracle 1 = .exc (.httpStatusErr 404)
    ∧ (_fetch_page httpThenOkOracle).attempts = 2
    ∧ (_fetch_page httpThenOkOracle).outcome = .ok ("ok".toList) :=
  ⟨rfl, rfl, rfl⟩

/-- Claim C2 as amended: `_fetch_page` retries Network, Timeout and non-2xx
HTTP status failures alike (all of them match the retry predicate); only an
exception outside `(aiohttp.ClientError, asyncio.TimeoutError)` fails the
fetch immediately on attempt 1 with no further attempt issued. -/
theorem fetch_retry_classes :
    (∀ oracle, oracle 1 = .exc .otherErr →
        (_fetch_page oracle).outcome = .error .otherErr
        ∧ (_fetch_page oracle).attempts = 1)
    ∧ (∀ oracle e, oracle 1 = .exc e → retryableExc e = true →
        2 ≤ (_fetch_page oracle).attempts) := by
  constructor
  · intro oracle h1
    constructor <;> simp [_fetch_page, fetchAux, h1, retryableExc]
  · intro oracle e h1 hr
    have heq : _fetch_page oracle
        = fetchAux oracle 2 2 ([] ++ [wait_exponential 1 2 10 1]) := by
      simp [_fetch_page, fetchAux, h1, hr]
    rw [heq]
    exact fetchAux_attempts_ge oracle 2 2 _

/-- Witness for the amended C2 at an oracle whose first attempt raises an
unexpected exception. -/
theorem fetch_retry_classes_w :
    (_fetch_page (fun _ => .exc .otherErr)).outcome = .error .otherErr
    ∧ (_fetch_page (fun _ => .exc .otherErr)).attempts = 1 :=
  fetch_retry_classes.1 (fun _ => .exc .otherErr) rfl

/-- Counterexample to C1: a batch of one title whose fetch fails with a
network error; `_scrape_job_info` returns `ok []` — the error does not
propagate, the batch is not aborted, and the failure is silently swallowed
into a shorter (empty) result sequence. -/
theorem fetch_failure_swallowed :
    _scrape_job_info [.error .netErr]
        (fun _ => [("title".toList, "t".toList)]) = .ok []
    ∧ ∀ e : FetchExc,
        _scrape_job_info [.error .netErr]
          (fun _ => [("title".toList, "t".toList)]) ≠ .error e := by
  refine ⟨rfl, ?_⟩
  intro e h
  exact Except.noConfusion h

/-- Claim C1 as amended: a fetch-level failure on an item is caught inside
`Scrapper.scrape`, which returns `None`; `_scrape_job_info` then skips the
item and continues, always returning `ok` with one record per successfully
fetched, truthily extracted item — strictly fewer records than input items
whenever some fetch failed. -/
theorem scrape_job_info_skips_failed_fetches
    (fetches : List (Except FetchExc (List Char)))
    (extractor : List Char → PyDict) :
    ∃ l, _scrape_job_info fetches extractor = .ok l
      ∧ l.length = fetches.countP (fun f =>
          match f with
          | .ok html => pyTruthyDict (extractor html)
          | .error _ => false)
      ∧ ((∃ f ∈ fetches, ∃ e, f = .error e) →
          l.length < fetches.length) := by
  refine ⟨_, rfl, ?_, ?_⟩
  · rw [length_filterMap_countP]
    congr 1
    funext f
    cases f with
    | ok html =>
      simp only [scrape]
      cases pyTruthyDict (extractor html) <;> simp
    | error e => simp [scrape]
  · rintro ⟨f, hf, e, rfl⟩
    rw [length_filterMap_countP]
    exact countP_lt_of_mem_false _ fetches (.error e) hf rfl

/-- Witness for the amended C1 at a two-item batch whose first fetch fails. -/
theorem scrape_job_info_skips_failed_fetches_w :
    ∃ l, _scrape_job_info [.error .netErr, .ok ("h".toList)]
        (fun _ => [("title".toList, "t".toList)]) = .ok l
      ∧ l.length < 2 := by
  obtain ⟨l, hok, _, hlt⟩ := scrape_job_info_skips_failed_fetches
    [.error .netErr, .ok ("h".toList)]
    (fun _ => [("title".toList, "t".toList)])
  refine ⟨l, hok, ?_⟩
  have h2 := hlt ⟨.error .netErr, by simp, .netErr, rfl⟩
  simpa using h2

/-- A listing page whose first anchor has no nested label node and whose
second anchor has one. -/
def pageMissingLabel : Page :=
  ⟨some [⟨none, "u0".toList⟩, ⟨some ("A".toList), "u1".toList⟩]⟩

/-- Counterexample to C3: on a container whose first anchor lacks the label
node, the single record produced has index "1" — the skipped anchor consumed
index slot 0, so the indices are not the dense sequence "0"..."N-1". -/
theorem skipped_anchor_consumes_index_slot :
    (extract_positions pageMissingLabel).map (fun r => r.index)
      = ["1".toList]
    ∧ (extract_positions pageMissingLabel).map (fun r => r.index)
      ≠ ["0".toList] := by
  exact ⟨rfl, by decide⟩

/-- Claim C3 as amended: an anchor without the label node produces no
record but does consume its enumeration index slot: the record count is the
number of labelled anchors, and only when every anchor carries a label are
the indices the dense stringified sequence "0"..."N-1" in document order. -/
theorem extract_positions_indices (links : List Anchor) :
    (extract_positions ⟨some links⟩).length
      = links.countP (fun a => a.link_text.isSome)
    ∧ ((∀ a ∈ links, a.link_text.isSome = true) →
        (extract_positions ⟨some links⟩).map (fun r => r.index)
          = (List.range links.length).map (fun i => (Nat.repr i).toList)) := by
  constructor
  · exact posStep_enumFrom_length links 0
  · intro h
    have hd := posStep_enumFrom_dense links 0 h
    rw [List.range_eq_range']
    exact hd

/-- Witness for the amended C3: three labelled anchors give exactly the
indices "0", "1", "2" in document order. -/
theorem extract_positions_indices_w :
    (extract_positions ⟨some [⟨some ("A".toList), "uA".toList⟩,
        ⟨some ("B".toList), "uB".toList⟩,
        ⟨some ("C".toList), "uC".toList⟩]⟩).map (fun r => r.index)
      = ["0".toList, "1".toList, "2".toList] := by
  have h := (extract_positions_indices [⟨some ("A".toList), "uA".toList⟩,
    ⟨some ("B".toList), "uB".toList⟩,
    ⟨some ("C".toList), "uC".toList⟩]).2 (by decide)
  rw [h]
  decide

end WSC
